import Mathlib

/-!
Verification development for the Vita3K https downloader
(`src/https/functions.cpp`): a shallow embedding of the secure-transport
`init`, the header parsing helpers (`get_file_size`, `get_content_md5`,
`convert_md5_bytes_to_str`), and the `download_file` orchestrator, together
with theorems about the claims of the specification.

Bytes are modelled as `Nat` (values of C `unsigned char` are taken modulo
256 where the C type forces it); C `uint32_t` arithmetic carries an explicit
`% 2^32`.  Network, file-system and hash effects are supplied by explicit
oracle structures (`World`, `NetEnv`).  The two floating-point tolerance
comparisons of the source (`bytes_read < header_size * 0.99f` and
`downloaded_file_size < file_size * 0.99`) are kept abstract as boolean
oracle fields, since floating point does not translate to the embedding;
every claim below is about the control flow around them, not their boundary.
-/

namespace https

/-- Generic literal matcher: `dropLit pat s` returns the remainder of `s`
after `pat` when `pat` is an initial segment of `s`, else `none`.  Used to
model the literal parts of the `std::regex` patterns in the source. -/
def dropLit {α : Type} [DecidableEq α] : List α → List α → Option (List α)
  | [], s => some s
  | _ :: _, [] => none
  | l :: ls, c :: cs => if c = l then dropLit ls cs else none

/-- Generic substring test, modelling `std::string::find(pat) != npos`. -/
def containsG {α : Type} [DecidableEq α] (pat : List α) : List α → Bool
  | [] => (dropLit pat ([] : List α)).isSome
  | c :: cs => (dropLit pat (c :: cs)).isSome || containsG pat cs

/-- Substring test on strings (`response.find(marker) != std::string::npos`). -/
def strContains (s pat : String) : Bool := containsG pat.toList s.toList

/-- Model of `std::regex_search` for the single-capture patterns
`LIT([cls]+)` used by the source (`Content-Length: (\d+)` and
`Content-MD5: ([-A-Za-z0-9+/=]+)`): scan left to right for the first
position where the literal is followed by at least one class character,
and capture the maximal class-character run there. -/
def findCapture (lit : List Char) (cls : Char → Bool) : List Char → Option (List Char)
  | [] => none
  | c :: cs =>
    match dropLit lit (c :: cs) with
    | some r =>
      let cap := r.takeWhile cls
      if cap.isEmpty then findCapture lit cls cs else some cap
    | none => findCapture lit cls cs

/-- The character class of C's `isspace` in the default locale (also the
class of the regex `\s`). -/
def isSpaceC (c : Char) : Bool :=
  c == ' ' || c == '\t' || c == '\n' || c == '\x0b' || c == '\x0c' || c == '\r'

/-- The regex character class `[-A-Za-z0-9+/=]` of the `Content-MD5` pattern. -/
def isB64Class (c : Char) : Bool :=
  c == '-' || ('A' ≤ c && c ≤ 'Z') || ('a' ≤ c && c ≤ 'z') ||
    ('0' ≤ c && c ≤ '9') || c == '+' || c == '/' || c == '='

/-- The regex character class `\d` (also C's `isdigit`). -/
def isDigitC (c : Char) : Bool := '0' ≤ c && c ≤ '9'

/-- Decimal value of a digit string, modelling `std::stoll` on an
all-digit capture (the source validates the capture with `isdigit` first). -/
def natOfDigits (ds : List Char) : Nat :=
  ds.foldl (fun n c => n * 10 + (c.toNat - 48)) 0

/-- The base64 alphabet string of `get_content_md5`. -/
def base64_chars : String :=
  "ABCDEFGHIJKLMNOPQRSTUVWXYZabcdefghijklmnopqrstuvwxyz0123456789+/"

/-- Index of a character in a character list, modelling `std::string::find`
(`none` plays the role of `npos`). -/
def idxOfChar : List Char → Char → Option Nat
  | [], _ => none
  | d :: ds, c => if d = c then some 0 else (idxOfChar ds c).map (· + 1)

/-- `base64_chars.find(c)` of the source. -/
def b64Value (c : Char) : Option Nat := idxOfChar base64_chars.toList c

/-- The manual base64 decoding loop of `get_content_md5`: a 6-bit
accumulator over a `uint32_t` (explicit `% 2^32`), `=` and whitespace
skipped, a byte `(accum >> accum_bits) & 0xFF` emitted whenever at least
8 bits have accumulated, and failure (`none`) on the first character that
is not in the 64-character alphabet.  `out` collects the emitted bytes in
order (the C code stores them through `md5_bytes[i++]`). -/
def b64DecodeLoop : List Char → Nat → Nat → List Nat → Option (List Nat)
  | [], _, _, out => some out
  | c :: cs, accum, accumBits, out =>
    if isSpaceC c || c == '=' then b64DecodeLoop cs accum accumBits out
    else
      match b64Value c with
      | none => none
      | some v =>
        let accum2 := ((accum <<< 6) % 2 ^ 32) ||| v
        let bits2 := accumBits + 6
        if 8 ≤ bits2 then
          b64DecodeLoop cs accum2 (bits2 - 8) (out ++ [(accum2 >>> (bits2 - 8)) &&& 255])
        else
          b64DecodeLoop cs accum2 bits2 out

/-- Decode a full captured value starting from the zeroed state, as
`get_content_md5` does. -/
def b64DecodeChars (cap : List Char) : Option (List Nat) := b64DecodeLoop cap 0 0 []

/-- Uppercase hexadecimal digit, as produced by `sprintf("%02X", ...)`. -/
def hexDigitU (n : Nat) : Char := "0123456789ABCDEF".toList.getD n '0'

/-- Model of `convert_md5_bytes_to_str`: each byte of the 16-byte digest
buffer rendered as two uppercase hexadecimal characters (`%02X`).  The
`% 256` records that the C buffer cells have type `unsigned char`. -/
def convert_md5_bytes_to_str (bs : List Nat) : String :=
  String.mk (bs.foldr (fun b acc => hexDigitU (b % 256 / 16) :: hexDigitU (b % 256 % 16) :: acc) [])

/-- The 16-cell `md5_bytes` buffer of `get_content_md5` after the decode
loop wrote the bytes `bs` into it sequentially: cells beyond the written
ones keep their initial (uninitialized, in C) contents `buf`.  Writes past
index 15 would be out of bounds in the C code (undefined behavior) and are
dropped here. -/
def fillBuf (buf bs : List Nat) : List Nat := (bs ++ buf.drop bs.length).take 16

/-- Model of `get_content_md5`: capture the `Content-MD5: ([-A-Za-z0-9+/=]+)`
value, base64-decode it, and render the 16-byte buffer as uppercase hex;
an absent header or an invalid base64 character yields the empty string.
`buf` supplies the initial (uninitialized) contents of the stack buffer. -/
def get_content_md5 (buf : List Nat) (header : String) : String :=
  match findCapture "Content-MD5: ".toList isB64Class header.toList with
  | none => ""
  | some cap =>
    match b64DecodeChars cap with
    | none => ""
    | some bs => convert_md5_bytes_to_str (fillBuf buf bs)

/-- Model of `get_file_size`: capture `Content-Length: (\d+)`, check the
capture is all digits (always true for a `\d+` capture) and convert;
an absent header yields 0. -/
def get_file_size (header : String) : Nat :=
  match findCapture "Content-Length: ".toList isDigitC header.toList with
  | none => 0
  | some ds => if ds.all isDigitC then natOfDigits ds else 0

/-- The tail of the `Location: (https?://[^\s]+)` pattern after the
literal: `http` with an optional greedy `s`, then `://`, then a maximal
nonempty run of non-whitespace, all captured. -/
def locTail (r : List Char) : Option (List Char) :=
  match dropLit "https://".toList r with
  | some rest =>
    let cap := rest.takeWhile (fun c => !isSpaceC c)
    if cap.isEmpty then none else some ("https://".toList ++ cap)
  | none =>
    match dropLit "http://".toList r with
    | some rest =>
      let cap := rest.takeWhile (fun c => !isSpaceC c)
      if cap.isEmpty then none else some ("http://".toList ++ cap)
    | none => none

/-- Left-to-right scan for the `Location: (https?://[^\s]+)` pattern. -/
def locScan : List Char → Option (List Char)
  | [] => none
  | c :: cs =>
    match dropLit "Location: ".toList (c :: cs) with
    | some r =>
      match locTail r with
      | some cap => some cap
      | none => locScan cs
    | none => locScan cs

/-- Model of the redirect-target extraction of `download_file` (the
capture of `std::regex("Location: (https?://[^\\s]+)")`). -/
def locCapture (s : String) : Option String := (locScan s.toList).map String.mk

/-- Model of the URL parsing in `init` (lines 89-102): after the first
`://` the host extends to the first `/`, which starts the uri; with no
`/` the uri defaults to `/`; with no `://` host and uri stay empty. -/
def splitOnSub (pat : List Char) : List Char → Option (List Char × List Char)
  | [] => none
  | c :: cs =>
    match dropLit pat (c :: cs) with
    | some r => some ([], r)
    | none =>
      match splitOnSub pat cs with
      | some (pre, post) => some (c :: pre, post)
      | none => none

/-- Split a character list at the first occurrence of a character. -/
def splitOnChar (ch : Char) : List Char → Option (List Char × List Char)
  | [] => none
  | c :: cs =>
    if c = ch then some ([], cs)
    else
      match splitOnChar ch cs with
      | some (pre, post) => some (c :: pre, post)
      | none => none

/-- The URL parser of `init`: `(host, uri)`. -/
def parse_url (url : String) : String × String :=
  match splitOnSub "://".toList url.toList with
  | none => ("", "")
  | some (_, post) =>
    match splitOnChar '/' post with
    | some (h, rest) => (String.mk h, String.mk ('/' :: rest))
    | none => (String.mk post, "/")

/-- The request string built by `init` (lines 172-180). -/
def build_request (method uri host : String) (downloaded_file_size : Nat) : String :=
  method ++ " " ++ uri ++ " HTTP/1.1\r\n" ++
    ("Host: " ++ host ++ "\r\n") ++
    (if downloaded_file_size > 0 then
      "Accept-Ranges: bytes\r\n" ++ ("Range: bytes=" ++ toString downloaded_file_size ++ "-\r\n")
    else "") ++
    "User-Agent: OpenSSL/1.1.1\r\n" ++
    "Connection: close\r\n\r\n"

/-- Outcomes of the system calls made by `init`, supplied as an oracle:
`ctxOk` for `SSL_CTX_new`, `socketOk` for `socket`, `gaiRet`/`gaiResult`
for the return value and result pointer of `getaddrinfo`, `connectOk` for
`connect`, `sockoptOk`/`soErr` for `getsockopt(SO_ERROR)` and the reported
error, `sslConnectOk` for `SSL_connect`, `writeOk` for `SSL_write`. -/
structure NetEnv where
  ctxOk : Bool
  socketOk : Bool
  gaiRet : Int
  gaiResult : Bool
  connectOk : Bool
  sockoptOk : Bool
  soErr : Int
  sslConnectOk : Bool
  writeOk : Bool
deriving DecidableEq, Repr

/-- Observable effects of one `init` call: whether the returned `Https`
value has a non-null `ssl` handle, which resources were acquired and
released, whether the TLS handshake completed, and the request sent. -/
structure InitResult where
  sslSession : Bool
  ctxCreated : Bool
  ctxFreed : Bool
  sockCreated : Bool
  sockClosed : Bool
  addrAlloc : Bool
  addrFreed : Bool
  sslCreated : Bool
  sslFreed : Bool
  handshake : Bool
  sentRequest : Option String
deriving DecidableEq, Repr

/-- An `InitResult` with nothing acquired. -/
def noInit : InitResult :=
  { sslSession := false, ctxCreated := false, ctxFreed := false, sockCreated := false,
    sockClosed := false, addrAlloc := false, addrFreed := false, sslCreated := false,
    sslFreed := false, handshake := false, sentRequest := none }

/-- Model of the transport open operation `init(url, method,
downloaded_file_size)` (lines 59-199), on the POSIX branch: each failure
path releases exactly the resources acquired so far and returns a value
whose `ssl` handle is null; the success path hands the socket and SSL
handle to the caller and releases the SSL context and address info. -/
def init (env : NetEnv) (url method : String) (downloaded_file_size : Nat) : InitResult :=
  if !env.ctxOk then noInit
  else if !env.socketOk then
    { noInit with ctxCreated := true, ctxFreed := true }
  else
    let hostUri := parse_url url
    if env.gaiRet < 0 || !env.gaiResult then
      { noInit with
        ctxCreated := true, ctxFreed := true, sockCreated := true,
        sockClosed := true, addrAlloc := env.gaiResult, addrFreed := env.gaiResult }
    else if !env.connectOk then
      { noInit with
        ctxCreated := true, ctxFreed := true, sockCreated := true,
        sockClosed := true, addrAlloc := true, addrFreed := true }
    else if !env.sockoptOk then
      { noInit with
        ctxCreated := true, ctxFreed := true, sockCreated := true,
        sockClosed := true, addrAlloc := true, addrFreed := true }
    else if env.soErr ≠ 0 then
      { noInit with
        ctxCreated := true, ctxFreed := true, sockCreated := true,
        sockClosed := true, addrAlloc := true, addrFreed := true }
    else if !env.sslConnectOk then
      { noInit with
        ctxCreated := true, ctxFreed := true, sockCreated := true,
        sockClosed := true, addrAlloc := true, addrFreed := true, sslCreated := true,
        sslFreed := true }
    else if !env.writeOk then
      { noInit with
        ctxCreated := true, ctxFreed := true, sockCreated := true,
        sockClosed := true, addrAlloc := true, addrFreed := true, sslCreated := true,
        sslFreed := true, handshake := true }
    else
      { sslSession := true, ctxCreated := true, ctxFreed := true, sockCreated := true,
        sockClosed := false, addrAlloc := true, addrFreed := true, sslCreated := true,
        sslFreed := false, handshake := true,
        sentRequest := some (build_request method hostUri.2 hostUri.1 downloaded_file_size) }

/-- Modelled from the spec: the control signal returned by the progress
callback (`ProgressState` of `https/functions.h`, which is not among the
given sources) — a "continue downloading" flag and a "pause" flag, with
the download flag initially set (the orchestrator starts in the
"continue" state) and pause initially clear. -/
structure ProgressState where
  download : Bool := true
  pause : Bool := false
deriving DecidableEq, Repr

/-- Which exit path of `download_file` produced the result; each
constructor corresponds to one `return` statement (and, for the size
shortfall, to which of the two log branches ran). -/
inductive Outcome where
  | emptyHead
  | noLocation
  | emptyRedirectHead
  | notFound
  | noContentMd5
  | noFileSize
  | getInitFailed
  | notFoundBody
  | headerShort
  | sizeShortError
  | sizeShortCancel
  | checksumMismatch
  | success
deriving DecidableEq, Repr

/-- Oracle for one `download_file` invocation: `netHead url` is the full
byte stream accumulated by `get_web_response(url, "HEAD")` before its 404
filtering (`none` when `init` fails there); `getOk url off` is the success
of `init(url, "GET", off)`; `getChunks url off` are the successive
`SSL_read` results of the body connection (first element is the header
read); `cb` is the progress callback, modelled as its stream of returned
control signals indexed by call count (`none` = null callback);
`md5digest content` is the 16-byte MD5 digest of a byte string (kept
abstract); `initMd5Buf` is the initial content of the uninitialized
`md5_bytes` buffer; `headerBelowTolerance n hs` models the floating-point
comparison `bytes_read < header_size * 0.99f` and `sizeBelowTolerance d fs`
models `downloaded_file_size < file_size * 0.99`. -/
structure World where
  netHead : String → Option String
  getOk : String → Nat → Bool
  getChunks : String → Nat → List (List Nat)
  cb : Option (Nat → ProgressState)
  md5digest : List Nat → List Nat
  initMd5Buf : List Nat
  headerBelowTolerance : Nat → Nat → Bool
  sizeBelowTolerance : Nat → Nat → Bool

/-- The `HTTP/1.1 404 Not Found` marker searched by substring. -/
def marker404 : String := "HTTP/1.1 404 Not Found"

/-- The `HTTP/1.1 302 Found` marker searched by substring. -/
def marker302 : String := "HTTP/1.1 302 Found"

/-- The 404 marker as bytes, for the search over the raw header chunk of
the GET stream. -/
def marker404bytes : List Nat := marker404.toList.map Char.toNat

/-- Model of `get_web_response(url, "HEAD")`: empty on transport failure,
empty when the response contains the 404 marker, the raw response
otherwise. -/
def get_web_response (w : World) (url : String) : String :=
  match w.netHead url with
  | none => ""
  | some resp => if strContains resp marker404 then "" else resp

/-- Result of the probe phase of `download_file` (lines 343-369):
either an early failure, or the effective URL, effective response and the
list of URLs probed. -/
inductive ProbeResult where
  | fail (out : Outcome) (finalUrl : String) (probes : List String)
  | ok (url : String) (resp : String) (probes : List String)
deriving DecidableEq, Repr

/-- The probe phase of `download_file`: the initial HEAD probe, and, when
the response carries the 302 marker, extraction of the `Location` target
and exactly one re-probe with no further redirect handling. -/
def resolve_head (w : World) (url0 : String) : ProbeResult :=
  let r0 := get_web_response w url0
  if r0 = "" then .fail .emptyHead url0 [url0]
  else if strContains r0 marker302 then
    match locCapture r0 with
    | none => .fail .noLocation url0 [url0]
    | some u =>
      let r1 := get_web_response w u
      if r1 = "" then .fail .emptyRedirectHead u [url0, u]
      else .ok u r1 [url0, u]
  else .ok url0 r0 [url0]

/-- Number of decimal digits printed by `std::to_string`. -/
def numDigits (n : Nat) : Nat := (toString n).length

/-- The header-size estimate of `download_file` (lines 406-412) for the
resumed case: the HEAD response length plus `13` plus the literal length
of the synthetic `Content-Range` line minus the digit-count difference,
in `size_t` arithmetic (the subtraction wraps modulo `2^64`). -/
def header_size_calc (respLen dl0 fileSize : Nat) : Nat :=
  if dl0 > 0 then
    (((respLen : Int) + 13 + (27 + numDigits dl0 + 2 * numDigits fileSize) -
        ((numDigits fileSize : Int) - numDigits dl0)).emod (2 ^ 64)).toNat
  else respLen

/-- The bytes that `std::string(read_buffer.data())` sees: the chunk up
to its first NUL byte. -/
def nulTrunc (bs : List Nat) : List Nat := bs.takeWhile (fun b => b != 0)

/-- The control signal after one more callback invocation (`ps` unchanged
when the callback is null). -/
def nextPs (w : World) (ps : ProgressState) (ci : Nat) : ProgressState :=
  match w.cb with
  | none => ps
  | some f => f ci

/-- The callback invocation counter after one loop iteration. -/
def nextCi (w : World) (ci : Nat) : Nat :=
  match w.cb with
  | none => ci
  | some _ => ci + 1

/-- The body-streaming loop of `download_file` (lines 453-487), with
explicit fuel (`none` = the given bound on iterations was exhausted; the
C loop can spin forever while paused).  State: remaining `SSL_read`
results, the last `bytes_read`, the downloaded byte counter, the output
file content, the current control signal and the callback call counter.
Each iteration: when not paused, read one chunk and append it to the file
if nonempty; when paused, change nothing (the C code only sleeps and
resets the ETA baseline); then sample the callback once. -/
def dlLoop (w : World) :
    Nat → List (List Nat) → Nat → Nat → List Nat → ProgressState → Nat →
      Option (Nat × List Nat × ProgressState × Nat)
  | 0, _, _, _, _, _, _ => none
  | fuel + 1, chunks, bytesRead, downloaded, content, ps, ci =>
    if ps.download && (bytesRead != 0) then
      if !ps.pause then
        match chunks with
        | [] => dlLoop w fuel [] 0 downloaded content (nextPs w ps ci) (nextCi w ci)
        | ch :: rest =>
          if ch.length = 0 then
            dlLoop w fuel rest 0 downloaded content (nextPs w ps ci) (nextCi w ci)
          else
            dlLoop w fuel rest ch.length (downloaded + ch.length) (content ++ ch)
              (nextPs w ps ci) (nextCi w ci)
      else dlLoop w fuel chunks bytesRead downloaded content (nextPs w ps ci) (nextCi w ci)
    else some (downloaded, content, ps, ci)

/-- Model of `calculate_md5_file` on a file that exists with content
`content`: the abstract MD5 digest rendered through
`convert_md5_bytes_to_str`. -/
def calculate_md5_file (w : World) (content : List Nat) : String :=
  convert_md5_bytes_to_str (w.md5digest content)

/-- The observable result of one `download_file` call: the returned
boolean, the final output-file state (`none` = absent/deleted), the exit
path taken, and the values of the locals that the source logs or tests on
that path (`downloaded`/`fileSize`/`contentMd5`/`computedMd5`), the final
control signal, the list of HEAD-probed URLs, the final task URL and the
effective probe response. -/
structure DLResult where
  ok : Bool
  file : Option (List Nat)
  outcome : Outcome
  downloaded : Nat
  fileSize : Nat
  contentMd5 : String
  computedMd5 : String
  lastPs : ProgressState
  probes : List String
  finalUrl : String
  probeResp : String
deriving DecidableEq, Repr

/-- A failing `DLResult` on a path that never opened the output file for
writing (the file keeps its prior state). -/
def mkFail (out : Outcome) (finalUrl : String) (probes : List String)
    (file : Option (List Nat)) (downloaded fileSize : Nat)
    (contentMd5 probeResp : String) : DLResult :=
  { ok := false, file := file, outcome := out, downloaded := downloaded,
    fileSize := fileSize, contentMd5 := contentMd5, computedMd5 := "",
    lastPs := {}, probes := probes, finalUrl := finalUrl, probeResp := probeResp }

/-- Model of `download_file(url, output_file_path, progress_callback)`
(lines 342-518).  `fsInit` is the prior content of the output file
(`none` = absent), `fuel` bounds the streaming loop.  The phases follow
the source in order: HEAD probe with single redirect hop, 404 check,
`Content-MD5` extraction, `Content-Length` extraction, resume-offset
read, GET open, header read with its 404 and 99%-shortfall checks, the
streaming loop, the final callback reset call, the size-tolerance check
classified by the last control signal, and the MD5 integrity check that
deletes the file on mismatch. -/
def download_file (w : World) (fsInit : Option (List Nat)) (url0 : String) (fuel : Nat) :
    Option DLResult :=
  match resolve_head w url0 with
  | .fail out fu probes => some (mkFail out fu probes fsInit 0 0 "" "")
  | .ok url resp probes =>
    if strContains resp marker404 then
      some (mkFail .notFound url probes fsInit 0 0 "" resp)
    else
      let content_md5 := get_content_md5 w.initMd5Buf resp
      if content_md5 = "" then some (mkFail .noContentMd5 url probes fsInit 0 0 "" resp)
      else
        let file_size := get_file_size resp
        if file_size = 0 then
          some (mkFail .noFileSize url probes fsInit 0 0 content_md5 resp)
        else
          let dl0 := (fsInit.getD []).length
          if !w.getOk url dl0 then
            some (mkFail .getInitFailed url probes fsInit dl0 file_size content_md5 resp)
          else
            let header_size := header_size_calc resp.length dl0 file_size
            let chunks := w.getChunks url dl0
            let hdrChunk := chunks.headD []
            let bytesRead0 := hdrChunk.length
            if containsG marker404bytes (nulTrunc hdrChunk) then
              some (mkFail .notFoundBody url probes fsInit dl0 file_size content_md5 resp)
            else if w.headerBelowTolerance bytesRead0 header_size then
              some (mkFail .headerShort url probes fsInit dl0 file_size content_md5 resp)
            else
              match dlLoop w fuel chunks.tail bytesRead0 dl0 (fsInit.getD []) {} 0 with
              | none => none
              | some (downloaded, content, ps, ci) =>
                let psF := nextPs w ps ci
                if w.sizeBelowTolerance downloaded file_size then
                  some
                    { ok := false, file := some content,
                      outcome := if psF.download then .sizeShortError else .sizeShortCancel,
                      downloaded := downloaded, fileSize := file_size,
                      contentMd5 := content_md5, computedMd5 := "", lastPs := psF,
                      probes := probes, finalUrl := url, probeResp := resp }
                else
                  let computed := calculate_md5_file w content
                  if computed ≠ content_md5 then
                    some
                      { ok := false, file := none, outcome := .checksumMismatch,
                        downloaded := downloaded, fileSize := file_size,
                        contentMd5 := content_md5, computedMd5 := computed, lastPs := psF,
                        probes := probes, finalUrl := url, probeResp := resp }
                  else
                    some
                      { ok := true, file := some content, outcome := .success,
                        downloaded := downloaded, fileSize := file_size,
                        contentMd5 := content_md5, computedMd5 := computed, lastPs := psF,
                        probes := probes, finalUrl := url, probeResp := resp }

/-! ### Helper lemmas on the scanning primitives -/

theorem dropLit_self_append {α : Type} [DecidableEq α] (l s : List α) :
    dropLit l (l ++ s) = some s := by
  induction l with
  | nil => rfl
  | cons c cs ih => simpa [dropLit] using ih

theorem splitOnSub_cons (pat : List Char) (c : Char) (cs : List Char) :
    splitOnSub pat (c :: cs) =
      match dropLit pat (c :: cs) with
      | some r => some ([], r)
      | none =>
        match splitOnSub pat cs with
        | some (pre, post) => some (c :: pre, post)
        | none => none := rfl

theorem splitOnChar_cons (ch c : Char) (cs : List Char) :
    splitOnChar ch (c :: cs) =
      if c = ch then some ([], cs)
      else
        match splitOnChar ch cs with
        | some (pre, post) => some (c :: pre, post)
        | none => none := rfl

theorem splitOnSub_sep (pre post : List Char) (h : ∀ c ∈ pre, c ≠ ':') :
    splitOnSub "://".toList (pre ++ "://".toList ++ post) = some (pre, post) := by
  induction pre with
  | nil =>
    show splitOnSub "://".toList (':' :: '/' :: '/' :: post) = some ([], post)
    rw [splitOnSub_cons]
    have hd : dropLit "://".toList (':' :: '/' :: '/' :: post) = some post :=
      dropLit_self_append "://".toList post
    rw [hd]
  | cons c cs ih =>
    have hc : c ≠ ':' := h c (List.mem_cons_self c cs)
    have ih2 := ih (fun d hd => h d (List.mem_cons_of_mem c hd))
    show splitOnSub "://".toList (c :: (cs ++ "://".toList ++ post)) = some (c :: cs, post)
    rw [splitOnSub_cons]
    have hlit : dropLit "://".toList (c :: (cs ++ "://".toList ++ post)) = none := by
      show (if c = ':' then dropLit ['/', '/'] (cs ++ "://".toList ++ post) else none) = none
      rw [if_neg hc]
    rw [hlit, ih2]

theorem splitOnChar_sep (ch : Char) (pre post : List Char) (h : ∀ c ∈ pre, c ≠ ch) :
    splitOnChar ch (pre ++ ch :: post) = some (pre, post) := by
  induction pre with
  | nil =>
    show splitOnChar ch (ch :: post) = some ([], post)
    rw [splitOnChar_cons, if_pos rfl]
  | cons c cs ih =>
    have hc : c ≠ ch := h c (List.mem_cons_self c cs)
    have ih2 := ih (fun d hd => h d (List.mem_cons_of_mem c hd))
    show splitOnChar ch (c :: (cs ++ ch :: post)) = some (c :: cs, post)
    rw [splitOnChar_cons, if_neg hc, ih2]

theorem splitOnChar_none (ch : Char) (l : List Char) (h : ∀ c ∈ l, c ≠ ch) :
    splitOnChar ch l = none := by
  induction l with
  | nil => rfl
  | cons c cs ih =>
    have hc : c ≠ ch := h c (List.mem_cons_self c cs)
    have ih2 := ih (fun d hd => h d (List.mem_cons_of_mem c hd))
    rw [splitOnChar_cons, if_neg hc, ih2]

theorem splitOnSub_none_of_not_contains (pat : List Char) (l : List Char)
    (h : containsG pat l = false) :
    splitOnSub pat l = none := by
  induction l with
  | nil => rfl
  | cons c cs ih =>
    have he : ((dropLit pat (c :: cs)).isSome || containsG pat cs) = false := h
    rw [Bool.or_eq_false_iff] at he
    obtain ⟨h1, h2⟩ := he
    rw [splitOnSub_cons]
    rcases hd : dropLit pat (c :: cs) with _ | r
    · rw [ih h2]
    · rw [hd] at h1
      simp at h1

/-! ### Claim C8: the request built by the transport -/

/-- The request shape asserted verbatim by the claim: request line, `Host`
header, the conditional `Accept-Ranges`/`Range` pair, then directly
`Connection: close` and the blank-line terminator. -/
def request_claim_shape (method uri host : String) (off : Nat) : String :=
  method ++ " " ++ uri ++ " HTTP/1.1\r\n" ++ ("Host: " ++ host ++ "\r\n") ++
    (if off > 0 then
      "Accept-Ranges: bytes\r\n" ++ ("Range: bytes=" ++ toString off ++ "-\r\n")
    else "") ++
    "Connection: close\r\n\r\n"

/-- The conditional resume-header pair of the request, exactly when the
resume offset is positive. -/
def rangePair (off : Nat) : String :=
  if 0 < off then
    "Accept-Ranges: bytes\r\n" ++ ("Range: bytes=" ++ toString off ++ "-\r\n")
  else ""

/-- The amended request shape: as the claim, plus the `User-Agent:
OpenSSL/1.1.1` header between the conditional pair and `Connection:
close`. -/
def request_amended_shape (method uri host : String) (off : Nat) : String :=
  (method ++ " " ++ uri ++ " HTTP/1.1\r\n" ++ "Host: " ++ host ++ "\r\n") ++
    rangePair off ++ ("User-Agent: OpenSSL/1.1.1\r\n" ++ "Connection: close\r\n\r\n")

/-- C8 counterexample: the request built by `init` is not the claimed
concatenation — already at method `GET`, uri `/`, host `h`, offset 0 the
built request contains a `User-Agent: OpenSSL/1.1.1` line that the
claimed shape omits. -/
theorem c8_request_counterexample :
    build_request "GET" "/" "h" 0 ≠ request_claim_shape "GET" "/" "h" 0 := by decide

/-- C8 amended: for every method, uri, host and resume offset the request
is the request line, the `Host` header, the `Accept-Ranges`/`Range` pair
iff the offset is positive, then a `User-Agent: OpenSSL/1.1.1` header,
and it always ends with `Connection: close` and the blank-line
terminator. -/
theorem c8_request_shape (method uri host : String) (off : Nat) :
    build_request method uri host off = request_amended_shape method uri host off := by
  unfold build_request request_amended_shape rangePair
  rcases Nat.eq_zero_or_pos off with h | h
  · subst h
    apply String.ext
    simp [String.data_append, List.append_assoc]
  · rw [if_pos h]
    apply String.ext
    simp [String.data_append, List.append_assoc]

/-! ### Claim C9: the URL parser of the transport -/

/-- C9 counterexample: a URL that does not match `scheme://host/path`
(it has no `://`) is not given the default path `/`: both host and path
come back empty. -/
theorem c9_parse_counterexample :
    parse_url "example.com" = ("", "") ∧ (parse_url "example.com").2 ≠ "/" := by
  constructor
  · decide
  · decide

/-- C9 amended: a URL of shape `scheme://host/path` is split into host
and path, a URL containing `://` but no later `/` gets the default path
`/`, and a URL with no `://` at all yields empty host and empty path (the
open operation does not fail, but the path is empty rather than `/`). -/
theorem c9_parse_url (scheme host path : String)
    (hs : ∀ c ∈ scheme.toList, c ≠ ':')
    (hh : ∀ c ∈ host.toList, c ≠ '/') :
    parse_url (scheme ++ "://" ++ host ++ "/" ++ path) = (host, "/" ++ path) ∧
    parse_url (scheme ++ "://" ++ host) = (host, "/") ∧
    ∀ url : String, strContains url "://" = false → parse_url url = ("", "") := by
  refine ⟨?_, ?_, ?_⟩
  · have hlist : (scheme ++ "://" ++ host ++ "/" ++ path).toList =
        scheme.toList ++ "://".toList ++ (host.toList ++ '/' :: path.toList) := by
      simp [String.toList, String.data_append]
    unfold parse_url
    rw [hlist]
    simp only [splitOnSub_sep _ _ hs, splitOnChar_sep _ _ _ hh]
    show (String.mk host.toList, String.mk ('/' :: path.toList)) = (host, "/" ++ path)
    rfl
  · have hlist : (scheme ++ "://" ++ host).toList =
        scheme.toList ++ "://".toList ++ host.toList := by
      simp [String.toList, String.data_append]
    unfold parse_url
    rw [hlist]
    simp only [splitOnSub_sep _ _ hs, splitOnChar_none _ _ hh]
    show (String.mk host.toList, "/") = (host, "/")
    rfl
  · intro url hurl
    unfold parse_url
    rw [splitOnSub_none_of_not_contains _ _ hurl]

/-- Witness for the amended C9 at concrete inputs. -/
theorem c9_parse_url_witness :
    parse_url ("https" ++ "://" ++ "h.com" ++ "/" ++ "a/b.pkg") = ("h.com", "/" ++ "a/b.pkg") ∧
    parse_url ("https" ++ "://" ++ "h.com") = ("h.com", "/") :=
  ⟨(c9_parse_url "https" "h.com" "a/b.pkg" (by decide) (by decide)).1,
   (c9_parse_url "https" "h.com" "a/b.pkg" (by decide) (by decide)).2.1⟩

/-! ### Claim C6: the transport open operation never leaks a partial session -/

/-- C6: every `init` call either returns a fully established session —
all of context creation, socket creation, address resolution, connect,
connect verification, TLS handshake and request send succeeded — or
returns a value with a null `ssl` handle after releasing every partially
acquired resource (SSL context, socket, address info, SSL handle). -/
theorem c6_init_full_or_released (env : NetEnv) (url method : String) (off : Nat) :
    ((init env url method off).sslSession = true →
      env.ctxOk = true ∧ env.socketOk = true ∧ ¬ env.gaiRet < 0 ∧ env.gaiResult = true ∧
        env.connectOk = true ∧ env.sockoptOk = true ∧ env.soErr = 0 ∧
        env.sslConnectOk = true ∧ env.writeOk = true ∧
        (init env url method off).handshake = true ∧
        (init env url method off).sentRequest =
          some (build_request method (parse_url url).2 (parse_url url).1 off)) ∧
    ((init env url method off).sslSession = false →
      ((init env url method off).ctxCreated = true → (init env url method off).ctxFreed = true) ∧
      ((init env url method off).sockCreated = true → (init env url method off).sockClosed = true) ∧
      ((init env url method off).addrAlloc = true → (init env url method off).addrFreed = true) ∧
      ((init env url method off).sslCreated = true → (init env url method off).sslFreed = true)) := by
  unfold init
  split_ifs with h1 h2 h3 h4 h5 h6 h7 h8 <;> simp_all [noInit]

/-- Witness for C6 at a concrete environment whose `connect` fails: the
returned value has no session and the acquired context was freed. -/
theorem c6_init_witness :
    (init
      { ctxOk := true, socketOk := true, gaiRet := 0, gaiResult := true, connectOk := false,
        sockoptOk := true, soErr := 0, sslConnectOk := true, writeOk := true }
      "https://h/f" "GET" 0).ctxFreed = true :=
  ((c6_init_full_or_released
    { ctxOk := true, socketOk := true, gaiRet := 0, gaiResult := true, connectOk := false,
      sockoptOk := true, soErr := 0, sslConnectOk := true, writeOk := true }
    "https://h/f" "GET" 0).2 rfl).1 rfl

/-! ### Claims C1-C5: the download orchestrator -/

/-- `resolve_head` fails only with the three probe-phase outcomes. -/
theorem resolve_head_fail_outcomes (w : World) (url0 : String) (out : Outcome)
    (fu : String) (probes : List String)
    (h : resolve_head w url0 = ProbeResult.fail out fu probes) :
    out = Outcome.emptyHead ∨ out = Outcome.noLocation ∨ out = Outcome.emptyRedirectHead := by
  unfold resolve_head at h
  dsimp only at h
  split_ifs at h with h1 h2
  · cases h
    exact Or.inl rfl
  · rcases hl : locCapture (get_web_response w url0) with _ | u <;> rw [hl] at h <;>
      dsimp only at h
    · cases h
      exact Or.inr (Or.inl rfl)
    · split_ifs at h with h3
      cases h
      exact Or.inr (Or.inr rfl)

/-- C1: `download_file` returns true only when both final checks succeed —
the result is the success exit, the downloaded size was not below the
99%-tolerance check against the expected total, and the MD5 hash of the
output file equals the checksum decoded from the probe response's
`Content-MD5` header; every other path returns false (contrapositive of
`r.ok = true`). -/
theorem c1_download_true_only_with_checks (w : World) (fsInit : Option (List Nat))
    (url0 : String) (fuel : Nat) (r : DLResult)
    (hres : download_file w fsInit url0 fuel = some r) (hok : r.ok = true) :
    r.outcome = Outcome.success ∧
    w.sizeBelowTolerance r.downloaded r.fileSize = false ∧
    r.computedMd5 = r.contentMd5 ∧
    r.contentMd5 = get_content_md5 w.initMd5Buf r.probeResp ∧
    ∃ content, r.file = some content ∧ r.computedMd5 = calculate_md5_file w content := by
  unfold download_file at hres
  rcases hpr : resolve_head w url0 with ⟨out, fu, probes⟩ | ⟨url, resp, probes⟩ <;>
    rw [hpr] at hres <;> dsimp only at hres
  · cases Option.some.inj hres
    simp [mkFail] at hok
  · split_ifs at hres with h404 hmd5 hfs hget hnf hhdr <;>
      first
        | (cases Option.some.inj hres; simp [mkFail] at hok)
        | skip
    rcases hloop : dlLoop w fuel (w.getChunks url (fsInit.getD []).length).tail
        ((w.getChunks url (fsInit.getD []).length).headD []).length
        (fsInit.getD []).length (fsInit.getD []) {} 0 with _ | ⟨d, content, ps, ci⟩ <;>
      rw [hloop] at hres <;> dsimp only at hres
    · cases hres
    · split_ifs at hres with hsize hdl hne
      · cases Option.some.inj hres
        simp at hok
      · cases Option.some.inj hres
        simp at hok
      · cases Option.some.inj hres
        simp at hok
      · cases Option.some.inj hres
        refine ⟨rfl, ?_, ?_, ?_, content, rfl, rfl⟩
        · simpa using hsize
        · show calculate_md5_file w content = get_content_md5 w.initMd5Buf resp
          exact not_ne_iff.mp hne
        · rfl

/-- C2: whenever `download_file` reaches the integrity check (the
checksum-mismatch or success exits) and the hex digest computed from the
output file differs from the checksum decoded from the probe response,
the output file is deleted and the call returns false. -/
theorem c2_checksum_mismatch_deletes (w : World) (fsInit : Option (List Nat))
    (url0 : String) (fuel : Nat) (r : DLResult)
    (hres : download_file w fsInit url0 fuel = some r)
    (hreach : r.outcome = Outcome.checksumMismatch ∨ r.outcome = Outcome.success)
    (hne : r.computedMd5 ≠ r.contentMd5) :
    r.ok = false ∧ r.file = none ∧ r.outcome = Outcome.checksumMismatch := by
  unfold download_file at hres
  rcases hpr : resolve_head w url0 with ⟨out, fu, probes⟩ | ⟨url, resp, probes⟩ <;>
    rw [hpr] at hres <;> dsimp only at hres
  · have h3 := resolve_head_fail_outcomes w url0 _ _ _ hpr
    cases Option.some.inj hres
    rcases h3 with h3 | h3 | h3 <;> subst h3 <;>
      rcases hreach with h | h <;> simp [mkFail] at h
  · split_ifs at hres with h404 hmd5 hfs hget hnf hhdr <;>
      first
        | (cases Option.some.inj hres; rcases hreach with h | h <;> simp [mkFail] at h)
        | skip
    rcases hloop : dlLoop w fuel (w.getChunks url (fsInit.getD []).length).tail
        ((w.getChunks url (fsInit.getD []).length).headD []).length
        (fsInit.getD []).length (fsInit.getD []) {} 0 with _ | ⟨d, content, ps, ci⟩ <;>
      rw [hloop] at hres <;> dsimp only at hres
    · cases hres
    · split_ifs at hres with hsize hdl hq
      · cases Option.some.inj hres
        rcases hreach with h | h <;> simp at h
      · cases Option.some.inj hres
        rcases hreach with h | h <;> simp at h
      · cases Option.some.inj hres
        exact ⟨rfl, rfl, rfl⟩
      · cases Option.some.inj hres
        exact absurd hne (not_ne_iff.mpr (not_ne_iff.mp hq))

/-- C3: when the effective probe response (the one reaching metadata
extraction) yields an empty checksum from the `Content-MD5` extraction or
a declared content length of 0, `download_file` returns false before the
output file is ever opened for writing — the output file keeps exactly
its prior state. -/
theorem c3_missing_metadata_fails (w : World) (fsInit : Option (List Nat))
    (url0 : String) (fuel : Nat) (u resp : String) (probes : List String) (r : DLResult)
    (hpr : resolve_head w url0 = ProbeResult.ok u resp probes)
    (hbad : get_content_md5 w.initMd5Buf resp = "" ∨ get_file_size resp = 0)
    (hres : download_file w fsInit url0 fuel = some r) :
    r.ok = false ∧ r.file = fsInit := by
  unfold download_file at hres
  rw [hpr] at hres
  dsimp only at hres
  split_ifs at hres with h404 hmd5 hfs hget hnf hhdr <;>
    first
      | (cases Option.some.inj hres; exact ⟨rfl, rfl⟩)
      | (rcases hbad with hb | hb
         · exact absurd hb hmd5
         · exact absurd hb hfs)

/-- C4: when the initial probe response carries the 302 marker,
`download_file` performs exactly one re-probe — with a parseable
`Location` the captured URL replaces the task URL and is probed once more
(the two probed URLs are the original and the captured one, with no
further redirect handling of the second response), and without a
parseable `Location` the call fails immediately. -/
theorem c4_redirect_single_hop (w : World) (fsInit : Option (List Nat))
    (url0 : String) (fuel : Nat) (r : DLResult)
    (hres : download_file w fsInit url0 fuel = some r)
    (h302 : strContains (get_web_response w url0) marker302 = true) :
    (∀ u, locCapture (get_web_response w url0) = some u →
      r.probes = [url0, u] ∧ r.finalUrl = u) ∧
    (locCapture (get_web_response w url0) = none →
      r.ok = false ∧ r.outcome = Outcome.noLocation ∧ r.probes = [url0]) := by
  have hr0ne : ¬ get_web_response w url0 = "" := by
    intro h0
    rw [h0] at h302
    exact absurd h302 (by decide)
  have hrh : resolve_head w url0 =
      match locCapture (get_web_response w url0) with
      | none => ProbeResult.fail Outcome.noLocation url0 [url0]
      | some u =>
        if get_web_response w u = "" then ProbeResult.fail Outcome.emptyRedirectHead u [url0, u]
        else ProbeResult.ok u (get_web_response w u) [url0, u] := by
    unfold resolve_head
    rw [if_neg hr0ne, if_pos h302]
  constructor
  · intro u hu
    rw [hu] at hrh
    dsimp only at hrh
    unfold download_file at hres
    rw [hrh] at hres
    by_cases hra : get_web_response w u = ""
    · rw [if_pos hra] at hres
      dsimp only at hres
      cases Option.some.inj hres
      exact ⟨rfl, rfl⟩
    · rw [if_neg hra] at hres
      dsimp only at hres
      split_ifs at hres with h404 hmd5 hfs hget hnf hhdr <;>
        first
          | (cases Option.some.inj hres; exact ⟨rfl, rfl⟩)
          | skip
      rcases hloop : dlLoop w fuel (w.getChunks u (fsInit.getD []).length).tail
          ((w.getChunks u (fsInit.getD []).length).headD []).length
          (fsInit.getD []).length (fsInit.getD []) {} 0 with _ | ⟨d, content, ps, ci⟩ <;>
        rw [hloop] at hres <;> dsimp only at hres
      · cases hres
      · split_ifs at hres <;> cases Option.some.inj hres <;> exact ⟨rfl, rfl⟩
  · intro hn
    rw [hn] at hrh
    dsimp only at hrh
    unfold download_file at hres
    rw [hrh] at hres
    dsimp only at hres
    cases Option.some.inj hres
    exact ⟨rfl, rfl, rfl⟩

/-- C5: when the streamed size falls below the 99%-tolerance check,
`download_file` returns false, and the outcome is classified by the last
control signal: a genuine transfer failure exactly when the final sampled
signal still says continue, a benign user cancellation when it says
stop. -/
theorem c5_size_short_classified (w : World) (fsInit : Option (List Nat))
    (url0 : String) (fuel : Nat) (r : DLResult)
    (hres : download_file w fsInit url0 fuel = some r)
    (hout : r.outcome = Outcome.sizeShortError ∨ r.outcome = Outcome.sizeShortCancel) :
    r.ok = false ∧
    w.sizeBelowTolerance r.downloaded r.fileSize = true ∧
    (r.outcome = Outcome.sizeShortError ↔ r.lastPs.download = true) := by
  unfold download_file at hres
  rcases hpr : resolve_head w url0 with ⟨out, fu, probes⟩ | ⟨url, resp, probes⟩ <;>
    rw [hpr] at hres <;> dsimp only at hres
  · have h3 := resolve_head_fail_outcomes w url0 _ _ _ hpr
    cases Option.some.inj hres
    rcases h3 with h3 | h3 | h3 <;> subst h3 <;>
      rcases hout with h | h <;> simp [mkFail] at h
  · split_ifs at hres with h404 hmd5 hfs hget hnf hhdr <;>
      first
        | (cases Option.some.inj hres; rcases hout with h | h <;> simp [mkFail] at h)
        | skip
    rcases hloop : dlLoop w fuel (w.getChunks url (fsInit.getD []).length).tail
        ((w.getChunks url (fsInit.getD []).length).headD []).length
        (fsInit.getD []).length (fsInit.getD []) {} 0 with _ | ⟨d, content, ps, ci⟩ <;>
      rw [hloop] at hres <;> dsimp only at hres
    · cases hres
    · split_ifs at hres with hsize hdl hq
      · cases Option.some.inj hres
        refine ⟨rfl, by simpa using hsize, ?_⟩
        simp [hdl]
      · cases Option.some.inj hres
        refine ⟨rfl, by simpa using hsize, ?_⟩
        constructor
        · intro h
          simp at h
        · intro h
          simp at h
          exact absurd h hdl
      · cases Option.some.inj hres
        rcases hout with h | h <;> simp at h
      · cases Option.some.inj hres
        rcases hout with h | h <;> simp at h

/-! ### Concrete worlds for the witnesses -/

/-- A probe response with valid length and checksum metadata (the base64
value decodes to the all-zero 16-byte digest). -/
def hdrOK : String :=
  "HTTP/1.1 200 OK\r\nContent-Length: 4\r\nContent-MD5: AAAAAAAAAAAAAAAAAAAAAA==\r\n\r\n"

/-- The all-zero 16-byte digest. -/
def zeros16 : List Nat := List.replicate 16 0

/-- Hex rendering of the all-zero digest. -/
def hexZeros : String := "00000000000000000000000000000000"

/-- A world in which the download fully succeeds. -/
def wSuccess : World :=
  { netHead := fun u => if u = "https://h/f" then some hdrOK else none
    getOk := fun _ _ => true
    getChunks := fun _ _ => [[72], [65, 66, 67, 68]]
    cb := none
    md5digest := fun _ => zeros16
    initMd5Buf := zeros16
    headerBelowTolerance := fun _ _ => false
    sizeBelowTolerance := fun d fs => decide (d * 100 < fs * 99) }

/-- The result of the successful download in `wSuccess`. -/
def rSuccess : DLResult :=
  { ok := true, file := some [65, 66, 67, 68], outcome := Outcome.success, downloaded := 4,
    fileSize := 4, contentMd5 := hexZeros, computedMd5 := hexZeros, lastPs := {},
    probes := ["https://h/f"], finalUrl := "https://h/f", probeResp := hdrOK }

/-- As `wSuccess` but the on-disk file hashes to a different digest. -/
def wMismatch : World := { wSuccess with md5digest := fun _ => List.replicate 16 1 }

/-- The result of the corrupted download in `wMismatch`. -/
def rMismatch : DLResult :=
  { ok := false, file := none, outcome := Outcome.checksumMismatch, downloaded := 4,
    fileSize := 4, contentMd5 := hexZeros,
    computedMd5 := "01010101010101010101010101010101", lastPs := {},
    probes := ["https://h/f"], finalUrl := "https://h/f", probeResp := hdrOK }

/-- As `wSuccess` but the body stream stops after one byte and the
progress callback immediately requests a stop. -/
def wCancel : World :=
  { wSuccess with
    getChunks := fun _ _ => [[72], [65]]
    cb := some (fun _ => { download := false, pause := false }) }

/-- The result of the cancelled download in `wCancel`. -/
def rCancel : DLResult :=
  { ok := false, file := some [65], outcome := Outcome.sizeShortCancel, downloaded := 1,
    fileSize := 4, contentMd5 := hexZeros, computedMd5 := "",
    lastPs := { download := false, pause := false },
    probes := ["https://h/f"], finalUrl := "https://h/f", probeResp := hdrOK }

/-- A 302 probe response with a parseable `Location`. -/
def hdr302 : String := "HTTP/1.1 302 Found\r\nLocation: https://h2/f\r\n\r\n"

/-- A world whose initial probe redirects (and whose re-probe fails, which
already exhibits the single-hop behavior). -/
def w302 : World :=
  { wSuccess with netHead := fun u => if u = "https://h/f" then some hdr302 else none }

/-- The result of the redirected probe in `w302`. -/
def r302 : DLResult :=
  mkFail Outcome.emptyRedirectHead "https://h2/f" ["https://h/f", "https://h2/f"] none 0 0 "" ""

/-- A probe response that lacks the `Content-MD5` header. -/
def hdrNoMd5 : String := "HTTP/1.1 200 OK\r\nContent-Length: 4\r\n\r\n"

/-- A world whose probe response has no checksum. -/
def wNoMd5 : World := { wSuccess with netHead := fun _ => some hdrNoMd5 }

/-- The result of the failed download in `wNoMd5` with a pre-existing
partial file `[9, 9]`. -/
def rNoMd5 : DLResult :=
  mkFail Outcome.noContentMd5 "https://h/f" ["https://h/f"] (some [9, 9]) 0 0 "" hdrNoMd5

/-- Witness for C1: a concrete fully successful download satisfying both
final checks. -/
theorem c1_download_witness :
    rSuccess.outcome = Outcome.success ∧
    wSuccess.sizeBelowTolerance rSuccess.downloaded rSuccess.fileSize = false ∧
    rSuccess.computedMd5 = rSuccess.contentMd5 ∧
    rSuccess.contentMd5 = get_content_md5 wSuccess.initMd5Buf rSuccess.probeResp ∧
    ∃ content, rSuccess.file = some content ∧
      rSuccess.computedMd5 = calculate_md5_file wSuccess content :=
  c1_download_true_only_with_checks wSuccess none "https://h/f" 10 rSuccess rfl rfl

/-- Witness for C2: a concrete corrupted download — file deleted, call
returns false. -/
theorem c2_checksum_witness :
    rMismatch.ok = false ∧ rMismatch.file = none ∧
    rMismatch.outcome = Outcome.checksumMismatch :=
  c2_checksum_mismatch_deletes wMismatch none "https://h/f" 10 rMismatch rfl (Or.inl rfl)
    (by decide)

/-- Witness for C3: a concrete probe response without `Content-MD5` — the
call fails and the pre-existing file bytes are untouched. -/
theorem c3_missing_metadata_witness :
    rNoMd5.ok = false ∧ rNoMd5.file = some [9, 9] :=
  c3_missing_metadata_fails wNoMd5 (some [9, 9]) "https://h/f" 10 "https://h/f" hdrNoMd5
    ["https://h/f"] rNoMd5 rfl (Or.inl rfl) rfl

/-- Witness for C4: a concrete 302 probe — exactly the original and the
captured URL are probed and the captured URL becomes the task URL. -/
theorem c4_redirect_witness :
    r302.probes = ["https://h/f", "https://h2/f"] ∧ r302.finalUrl = "https://h2/f" :=
  (c4_redirect_single_hop w302 none "https://h/f" 10 r302 rfl rfl).1 "https://h2/f" rfl

/-- Witness for C5: a concrete cancelled download — the size check fails,
the call returns false, and the outcome is the benign cancellation
because the last control signal said stop. -/
theorem c5_size_short_witness :
    rCancel.ok = false ∧
    wCancel.sizeBelowTolerance rCancel.downloaded rCancel.fileSize = true ∧
    (rCancel.outcome = Outcome.sizeShortError ↔ rCancel.lastPs.download = true) :=
  c5_size_short_classified wCancel none "https://h/f" 10 rCancel rfl (Or.inr rfl)

/-! ### Claim C7: the checksum extraction and decode -/

/-- A character is one of the sixteen uppercase hexadecimal digits. -/
def isHexUpper (c : Char) : Bool := ('0' ≤ c && c ≤ '9') || ('A' ≤ c && c ≤ 'F')

/-- A decode-relevant character that is neither skipped (whitespace, `=`)
nor in the base64 alphabet. -/
def isBadB64 (c : Char) : Bool := !(isSpaceC c || c == '=') && (b64Value c).isNone

theorem b64DecodeLoop_none_of_bad (s : List Char) (c0 : Char)
    (hmem : c0 ∈ s) (hbad : isBadB64 c0 = true) :
    ∀ accum bits out, b64DecodeLoop s accum bits out = none := by
  induction s with
  | nil => cases hmem
  | cons c cs ih =>
    intro accum bits out
    unfold b64DecodeLoop
    by_cases hskip : (isSpaceC c || c == '=') = true
    · rw [if_pos hskip]
      rcases List.mem_cons.mp hmem with h | h
      · subst h
        unfold isBadB64 at hbad
        rw [hskip] at hbad
        simp at hbad
      · exact ih h _ _ _
    · rw [if_neg hskip]
      rcases hv : b64Value c with _ | v
      · rfl
      · dsimp only
        rcases List.mem_cons.mp hmem with h | h
        · subst h
          unfold isBadB64 at hbad
          rw [hv] at hbad
          simp at hbad
        · split_ifs <;> exact ih h _ _ _

theorem fillBuf_of_len16 (buf bs : List Nat) (h : bs.length = 16) :
    fillBuf buf bs = bs := by
  unfold fillBuf
  rw [List.take_append_eq_append_take, h, Nat.sub_self, List.take_zero, List.append_nil]
  exact List.take_of_length_le (by omega)

theorem convert_md5_length (bs : List Nat) :
    (convert_md5_bytes_to_str bs).length = 2 * bs.length := by
  unfold convert_md5_bytes_to_str
  show (List.foldr _ [] bs).length = 2 * bs.length
  induction bs with
  | nil => rfl
  | cons b t ih =>
    show (hexDigitU (b % 256 / 16) :: hexDigitU (b % 256 % 16) ::
        List.foldr (fun b acc => hexDigitU (b % 256 / 16) :: hexDigitU (b % 256 % 16) :: acc)
          [] t).length = 2 * (b :: t).length
    simp only [List.length_cons, ih]
    omega

theorem hexDigitU_isHexUpper (n : Nat) (h : n < 16) : isHexUpper (hexDigitU n) = true := by
  interval_cases n <;> decide

theorem convert_md5_hex (bs : List Nat) :
    (convert_md5_bytes_to_str bs).toList.all isHexUpper = true := by
  unfold convert_md5_bytes_to_str
  show (List.foldr _ [] bs).all isHexUpper = true
  induction bs with
  | nil => rfl
  | cons b t ih =>
    show (hexDigitU (b % 256 / 16) :: hexDigitU (b % 256 % 16) ::
        List.foldr (fun b acc => hexDigitU (b % 256 / 16) :: hexDigitU (b % 256 % 16) :: acc)
          [] t).all isHexUpper = true
    rw [List.all_cons, List.all_cons, ih, hexDigitU_isHexUpper _ (by omega),
      hexDigitU_isHexUpper _ (by omega)]
    rfl

/-- C7: `get_content_md5` (a) yields the empty string when the
`Content-MD5: ([-A-Za-z0-9+/=]+)` pattern does not match, (b) yields the
empty string as soon as the captured value contains any non-skipped
character outside the 64-character base64 alphabet, and (c) otherwise —
when the 6-bit accumulator decode of the capture emits the 16 digest
bytes — yields exactly those decoded 16 bytes rendered as a 32-character
uppercase hexadecimal string. -/
theorem c7_content_md5_extraction (buf : List Nat) (h : String) :
    (findCapture "Content-MD5: ".toList isB64Class h.toList = none →
      get_content_md5 buf h = "") ∧
    (∀ s, findCapture "Content-MD5: ".toList isB64Class h.toList = some s →
      (∃ c ∈ s, isBadB64 c = true) → get_content_md5 buf h = "") ∧
    (∀ s bs, findCapture "Content-MD5: ".toList isB64Class h.toList = some s →
      b64DecodeChars s = some bs → bs.length = 16 →
      get_content_md5 buf h = convert_md5_bytes_to_str bs ∧
      (get_content_md5 buf h).length = 32 ∧
      (get_content_md5 buf h).toList.all isHexUpper = true) := by
  refine ⟨?_, ?_, ?_⟩
  · intro hn
    unfold get_content_md5
    rw [hn]
  · intro s hs hbad
    unfold get_content_md5
    rw [hs]
    dsimp only
    obtain ⟨c0, hc0, hb⟩ := hbad
    have : b64DecodeChars s = none := b64DecodeLoop_none_of_bad s c0 hc0 hb 0 0 []
    rw [this]
  · intro s bs hs hdec hlen
    have heq : get_content_md5 buf h = convert_md5_bytes_to_str bs := by
      unfold get_content_md5
      rw [hs]
      dsimp only
      rw [hdec]
      dsimp only
      rw [fillBuf_of_len16 _ _ hlen]
    refine ⟨heq, ?_, ?_⟩
    · rw [heq, convert_md5_length, hlen]
    · rw [heq]
      exact convert_md5_hex bs

/-- Witness for C7 at a concrete header whose `Content-MD5` value decodes
to the 16 zero bytes. -/
theorem c7_content_md5_witness :
    get_content_md5 zeros16 hdrOK = convert_md5_bytes_to_str zeros16 ∧
    (get_content_md5 zeros16 hdrOK).length = 32 ∧
    (get_content_md5 zeros16 hdrOK).toList.all isHexUpper = true :=
  (c7_content_md5_extraction zeros16 hdrOK).2.2 "AAAAAAAAAAAAAAAAAAAAAA==".toList zeros16
    rfl rfl rfl

/-! ### Claim C10: decode/render agreement with standard base64 -/

/-- Modelled from the spec: character of the standard base64 alphabet at
a 6-bit value (C10 speaks of the standard base64 encoding of the digest;
the server-side encoder is not part of the repository). -/
def encChar (v : Nat) : Char := base64_chars.toList.getD v 'A'

/-- Modelled from the spec: standard base64 encoding with `=` padding,
three input bytes giving four output characters. -/
def base64Encode : List Nat → List Char
  | a :: b :: c :: rest =>
    encChar (a / 4) :: encChar (a % 4 * 16 + b / 16) :: encChar (b % 16 * 4 + c / 64) ::
      encChar (c % 64) :: base64Encode rest
  | [a, b] => [encChar (a / 4), encChar (a % 4 * 16 + b / 16), encChar (b % 16 * 4), '=']
  | [a] => [encChar (a / 4), encChar (a % 4 * 16), '=', '=']
  | [] => []

theorem encChar_not_skip : ∀ v : Fin 64,
    (isSpaceC (encChar v.val) || encChar v.val == '=') = false := by decide

theorem b64Value_encChar : ∀ v : Fin 64, b64Value (encChar v.val) = some v.val := by decide

theorem b64DecodeLoop_step_noemit (v : Nat) (hv : v < 64) (cs : List Char)
    (accum bits : Nat) (out : List Nat) (hb : bits + 6 < 8) :
    b64DecodeLoop (encChar v :: cs) accum bits out =
      b64DecodeLoop cs (((accum <<< 6) % 2 ^ 32) ||| v) (bits + 6) out := by
  have h1 := encChar_not_skip ⟨v, hv⟩
  have h2 := b64Value_encChar ⟨v, hv⟩
  simp only [b64DecodeLoop, h1, h2, Bool.false_eq_true, if_false]
  rw [if_neg (by omega)]

theorem b64DecodeLoop_step_emit (v : Nat) (hv : v < 64) (cs : List Char)
    (accum bits : Nat) (out : List Nat) (hb : 8 ≤ bits + 6) :
    b64DecodeLoop (encChar v :: cs) accum bits out =
      b64DecodeLoop cs (((accum <<< 6) % 2 ^ 32) ||| v) (bits + 6 - 8)
        (out ++ [((((accum <<< 6) % 2 ^ 32) ||| v) >>> (bits + 6 - 8)) &&& 255]) := by
  have h1 := encChar_not_skip ⟨v, hv⟩
  have h2 := b64Value_encChar ⟨v, hv⟩
  simp only [b64DecodeLoop, h1, h2, Bool.false_eq_true, if_false]
  rw [if_pos hb]

theorem b64DecodeLoop_skip_eq (cs : List Char) (accum bits : Nat) (out : List Nat) :
    b64DecodeLoop ('=' :: cs) accum bits out = b64DecodeLoop cs accum bits out := rfl

theorem lor_low (y v : Nat) (hy : y % 2 ^ 6 = 0) (hv : v < 2 ^ 6) : y ||| v = y + v := by
  obtain ⟨m, rfl⟩ := Nat.dvd_of_mod_eq_zero hy
  exact (Nat.mul_add_lt_is_or hv m).symm

theorem and255 (x : Nat) : x &&& 255 = x % 256 := Nat.and_pow_two_sub_one_eq_mod x 8



theorem emit_full (accum a b c : Nat) (ha : a < 256) (hb : b < 256) (hc : c < 256) :
    (((((accum <<< 6 % 2 ^ 32 ||| a / 4) <<< 6 % 2 ^ 32) ||| (a % 4 * 16 + b / 16)) >>> 4) &&& 255 = a) ∧
    ((((((accum <<< 6 % 2 ^ 32 ||| a / 4) <<< 6 % 2 ^ 32 ||| (a % 4 * 16 + b / 16)) <<< 6 % 2 ^ 32) ||| (b % 16 * 4 + c / 64)) >>> 2) &&& 255 = b) ∧
    (((((((accum <<< 6 % 2 ^ 32 ||| a / 4) <<< 6 % 2 ^ 32 ||| (a % 4 * 16 + b / 16)) <<< 6 % 2 ^ 32 ||| (b % 16 * 4 + c / 64)) <<< 6 % 2 ^ 32) ||| c % 64) >>> 0) &&& 255 = c) := by
  simp only [Nat.shiftLeft_eq, Nat.shiftRight_eq_div_pow]
  rw [lor_low _ _ (by omega) (by omega)]
  rw [lor_low _ _ (by omega) (by omega)]
  rw [lor_low _ _ (by omega) (by omega)]
  rw [lor_low _ _ (by omega) (by omega)]
  rw [and255, and255, and255]
  refine ⟨by omega, by omega, by omega⟩



theorem emitA (accum a : Nat) (ha : a < 256) :
    ((accum <<< 6 % 2 ^ 32 ||| a / 4) <<< 6 % 2 ^ 32 ||| a % 4 * 16) >>> 4 &&& 255 = a := by
  simp only [Nat.shiftLeft_eq, Nat.shiftRight_eq_div_pow]
  rw [lor_low _ _ (by omega) (by omega)]
  rw [lor_low _ _ (by omega) (by omega)]
  rw [and255]
  omega

theorem emitB (accum a b : Nat) (ha : a < 256) (hb : b < 256) :
    (((accum <<< 6 % 2 ^ 32 ||| a / 4) <<< 6 % 2 ^ 32 ||| (a % 4 * 16 + b / 16)) <<< 6 % 2 ^ 32
        ||| b % 16 * 4) >>> 2 &&& 255 = b := by
  simp only [Nat.shiftLeft_eq, Nat.shiftRight_eq_div_pow]
  rw [lor_low _ _ (by omega) (by omega)]
  rw [lor_low _ _ (by omega) (by omega)]
  rw [lor_low _ _ (by omega) (by omega)]
  rw [and255]
  omega

theorem b64Decode_group (a b c : Nat) (ha : a < 256) (hb : b < 256) (hc : c < 256)
    (rest : List Char) (accum : Nat) (out : List Nat) :
    ∃ A, b64DecodeLoop (encChar (a / 4) :: encChar (a % 4 * 16 + b / 16) ::
        encChar (b % 16 * 4 + c / 64) :: encChar (c % 64) :: rest) accum 0 out =
      b64DecodeLoop rest A 0 (out ++ [a, b, c]) := by
  refine ⟨(((accum <<< 6 % 2 ^ 32 ||| a / 4) <<< 6 % 2 ^ 32 ||| (a % 4 * 16 + b / 16))
      <<< 6 % 2 ^ 32 ||| (b % 16 * 4 + c / 64)) <<< 6 % 2 ^ 32 ||| c % 64, ?_⟩
  rw [b64DecodeLoop_step_noemit (a / 4) (by omega) _ _ 0 _ (by omega)]
  simp only [Nat.reduceAdd]
  rw [b64DecodeLoop_step_emit (a % 4 * 16 + b / 16) (by omega) _ _ 6 _ (by omega)]
  simp only [Nat.reduceAdd, Nat.reduceSub]
  rw [b64DecodeLoop_step_emit (b % 16 * 4 + c / 64) (by omega) _ _ 4 _ (by omega)]
  simp only [Nat.reduceAdd, Nat.reduceSub]
  rw [b64DecodeLoop_step_emit (c % 64) (by omega) _ _ 2 _ (by omega)]
  simp only [Nat.reduceAdd, Nat.reduceSub]
  rw [(emit_full accum a b c ha hb hc).1, (emit_full accum a b c ha hb hc).2.1,
    (emit_full accum a b c ha hb hc).2.2]
  simp only [List.append_assoc, List.cons_append, List.nil_append]

theorem b64Decode_encode : ∀ (bs : List Nat), (∀ x ∈ bs, x < 256) →
    ∀ accum out, b64DecodeLoop (base64Encode bs) accum 0 out = some (out ++ bs)
  | [] => by
    intro _ accum out
    simp [base64Encode, b64DecodeLoop]
  | [a] => by
    intro h accum out
    have ha : a < 256 := h a (by simp)
    show b64DecodeLoop [encChar (a / 4), encChar (a % 4 * 16), '=', '='] accum 0 out = _
    rw [b64DecodeLoop_step_noemit (a / 4) (by omega) _ _ 0 _ (by omega)]
    simp only [Nat.reduceAdd]
    rw [b64DecodeLoop_step_emit (a % 4 * 16) (by omega) _ _ 6 _ (by omega)]
    simp only [Nat.reduceAdd, Nat.reduceSub]
    rw [b64DecodeLoop_skip_eq, b64DecodeLoop_skip_eq]
    rw [emitA accum a ha]
    simp [b64DecodeLoop]
  | [a, b] => by
    intro h accum out
    have ha : a < 256 := h a (by simp)
    have hb : b < 256 := h b (by simp)
    show b64DecodeLoop [encChar (a / 4), encChar (a % 4 * 16 + b / 16), encChar (b % 16 * 4), '=']
        accum 0 out = _
    rw [b64DecodeLoop_step_noemit (a / 4) (by omega) _ _ 0 _ (by omega)]
    simp only [Nat.reduceAdd]
    rw [b64DecodeLoop_step_emit (a % 4 * 16 + b / 16) (by omega) _ _ 6 _ (by omega)]
    simp only [Nat.reduceAdd, Nat.reduceSub]
    rw [b64DecodeLoop_step_emit (b % 16 * 4) (by omega) _ _ 4 _ (by omega)]
    simp only [Nat.reduceAdd, Nat.reduceSub]
    rw [b64DecodeLoop_skip_eq]
    rw [(emit_full accum a b 0 ha hb (by omega)).1, emitB accum a b ha hb]
    simp [b64DecodeLoop, List.append_assoc]
  | a :: b :: c :: rest => by
    intro h accum out
    have ha : a < 256 := h a (by simp)
    have hb : b < 256 := h b (by simp)
    have hc : c < 256 := h c (by simp)
    show b64DecodeLoop (encChar (a / 4) :: encChar (a % 4 * 16 + b / 16) ::
        encChar (b % 16 * 4 + c / 64) :: encChar (c % 64) :: base64Encode rest) accum 0 out = _
    obtain ⟨A, hA⟩ := b64Decode_group a b c ha hb hc (base64Encode rest) accum out
    rw [hA]
    rw [b64Decode_encode rest (fun x hx => h x (by simp [hx])) A (out ++ [a, b, c])]
    simp



theorem findCapture_cons (lit : List Char) (cls : Char → Bool) (c : Char) (cs : List Char) :
    findCapture lit cls (c :: cs) =
      match dropLit lit (c :: cs) with
      | some r =>
        let cap := r.takeWhile cls
        if cap.isEmpty then findCapture lit cls cs else some cap
      | none => findCapture lit cls cs := rfl

theorem takeWhile_append_break (p : Char → Bool) (xs : List Char) (y : Char) (ys : List Char)
    (hxs : ∀ x ∈ xs, p x = true) (hy : p y = false) :
    (xs ++ y :: ys).takeWhile p = xs := by
  induction xs with
  | nil => simp [List.takeWhile_cons, hy]
  | cons x t ih =>
    rw [List.cons_append, List.takeWhile_cons, hxs x (List.mem_cons_self x t),
      ih (fun z hz => hxs z (List.mem_cons_of_mem x hz))]
    rfl

theorem findCapture_at_start (lit cap : List Char) (cls : Char → Bool) (y : Char)
    (ys : List Char) (hlit : lit ≠ []) (hall : ∀ x ∈ cap, cls x = true) (hne : cap ≠ [])
    (hy : cls y = false) :
    findCapture lit cls (lit ++ (cap ++ y :: ys)) = some cap := by
  obtain ⟨l0, lrest, rfl⟩ := List.exists_cons_of_ne_nil hlit
  show findCapture (l0 :: lrest) cls (l0 :: (lrest ++ (cap ++ y :: ys))) = some cap
  rw [findCapture_cons]
  rw [show dropLit (l0 :: lrest) (l0 :: (lrest ++ (cap ++ y :: ys))) = some (cap ++ y :: ys)
    from dropLit_self_append (l0 :: lrest) (cap ++ y :: ys)]
  dsimp only
  rw [takeWhile_append_break cls cap y ys hall hy]
  obtain ⟨c0, ct, rfl⟩ := List.exists_cons_of_ne_nil hne
  rfl

theorem isB64Class_encChar_fin : ∀ v : Fin 64, isB64Class (encChar v.val) = true := by decide

theorem isB64Class_encChar (v : Nat) : isB64Class (encChar v) = true := by
  by_cases h : v < 64
  · exact isB64Class_encChar_fin ⟨v, h⟩
  · unfold encChar
    rw [List.getD_eq_default]
    · rfl
    · show 64 ≤ v
      omega

theorem base64Encode_all_class : ∀ bs : List Nat, ∀ ch ∈ base64Encode bs, isB64Class ch = true
  | [] => by simp [base64Encode]
  | [a] => by
    intro ch hch
    simp only [base64Encode, List.mem_cons, List.not_mem_nil, or_false] at hch
    rcases hch with h | h | h | h <;> subst h <;> first | exact isB64Class_encChar _ | rfl
  | [a, b] => by
    intro ch hch
    simp only [base64Encode, List.mem_cons, List.not_mem_nil, or_false] at hch
    rcases hch with h | h | h | h <;> subst h <;> first | exact isB64Class_encChar _ | rfl
  | a :: b :: c :: rest => by
    intro ch hch
    simp only [base64Encode, List.mem_cons] at hch
    rcases hch with h | h | h | h | h
    · subst h; exact isB64Class_encChar _
    · subst h; exact isB64Class_encChar _
    · subst h; exact isB64Class_encChar _
    · subst h; exact isB64Class_encChar _
    · exact base64Encode_all_class rest ch h

theorem base64Encode_ne_nil : ∀ (a : Nat) (t : List Nat), base64Encode (a :: t) ≠ [] := by
  intro a t
  match t with
  | [] => simp [base64Encode]
  | [b] => simp [base64Encode]
  | b :: c :: r => simp [base64Encode]

/-- C10 (decode/render agreement): for every 16-byte digest, applying the
checksum extraction to a header carrying the standard base64 encoding of
the digest yields exactly the hex string that `convert_md5_bytes_to_str`
produces from the digest, independently of the uninitialized buffer. -/
theorem c10_decode_encode_roundtrip (d buf : List Nat)
    (hlen : d.length = 16) (hlt : ∀ x ∈ d, x < 256) :
    get_content_md5 buf ("Content-MD5: " ++ String.mk (base64Encode d) ++ "\r\n") =
      convert_md5_bytes_to_str d := by
  obtain ⟨a, t, rfl⟩ : ∃ a t, d = a :: t := by
    cases d with
    | nil => simp at hlen
    | cons a t => exact ⟨a, t, rfl⟩
  have hlist : ("Content-MD5: " ++ String.mk (base64Encode (a :: t)) ++ "\r\n").toList =
      "Content-MD5: ".toList ++ (base64Encode (a :: t) ++ '\r' :: '\n' :: []) := by
    show ("Content-MD5: ".toList ++ base64Encode (a :: t)) ++ ('\r' :: '\n' :: []) =
      "Content-MD5: ".toList ++ (base64Encode (a :: t) ++ '\r' :: '\n' :: [])
    rw [List.append_assoc]
  have hcap : findCapture "Content-MD5: ".toList isB64Class
      (("Content-MD5: " ++ String.mk (base64Encode (a :: t)) ++ "\r\n").toList) =
      some (base64Encode (a :: t)) := by
    rw [hlist]
    exact findCapture_at_start _ _ _ _ _ (by decide) (base64Encode_all_class (a :: t))
      (base64Encode_ne_nil a t) rfl
  unfold get_content_md5
  rw [hcap]
  dsimp only
  rw [show b64DecodeChars (base64Encode (a :: t)) = some (a :: t)
    from b64Decode_encode (a :: t) hlt 0 []]
  dsimp only
  rw [fillBuf_of_len16 _ _ hlen]

/-- Witness for C10 at the all-zero digest. -/
theorem c10_roundtrip_witness :
    get_content_md5 zeros16 ("Content-MD5: " ++ String.mk (base64Encode zeros16) ++ "\r\n") =
      convert_md5_bytes_to_str zeros16 :=
  c10_decode_encode_roundtrip zeros16 zeros16 (by decide) (by decide)

end https
